import Mathlib

/-!
Verification of the queue-run serverless backend core.

The development shallowly embeds the repository's dispatch core:
the SQS queue dispatcher (standard and FIFO batches), the ambient
request-scoped `LocalStorage` context, the HTTP request engine
(CORS preflight, method and content-type checks, authentication,
timeout race, result-to-response coercion), and the manifest loader
(filesystem path grammar and duplicate-shape detection).

User code (handlers, middleware) is modelled as behaviour data passed
to the engine: what a handler returns or throws and how long it takes
to settle.  Asynchronous races are modelled by comparing settle times
against the deadline.  External collaborators (MD5, the SQS client)
are parameters of the definitions.
-/

set_option linter.unusedVariables false

namespace QueueRun

/-! ## JavaScript string primitives

List-based models of the JavaScript string operations the engine uses
(`split`, `startsWith`, `endsWith`, `toLowerCase`, `trim`, `replace`).
They are structurally recursive so that concrete runs reduce inside the
kernel. -/

/-- Worker for `jsSplit`: scan the characters, cutting at each occurrence
of the (non-empty) separator.  The fuel starts at the length of the
string and is never exhausted. -/
def jsSplitGo (sep : List Char) : Nat → List Char → List Char → List (List Char)
  | _, [], acc => [acc.reverse]
  | 0, cs, acc => [acc.reverse ++ cs]
  | fuel + 1, c :: rest, acc =>
    if sep ≠ [] ∧ sep.isPrefixOf (c :: rest) then
      acc.reverse :: jsSplitGo sep fuel ((c :: rest).drop sep.length) []
    else
      jsSplitGo sep fuel rest (c :: acc)

/-- `s.split(sep)` for a non-empty separator. -/
def jsSplit (s sep : String) : List String :=
  if sep = "" then [s]
  else (jsSplitGo sep.toList s.toList.length s.toList []).map String.mk

/-- `s.toLowerCase()`. -/
def lowerStr (s : String) : String := String.mk (s.toList.map Char.toLower)

/-- `s.startsWith(pre)`. -/
def strStartsWith (s pre : String) : Bool := pre.toList.isPrefixOf s.toList

/-- `s.endsWith(post)`. -/
def strEndsWith (s post : String) : Bool :=
  post.toList.reverse.isPrefixOf s.toList.reverse

/-- `s.trim()`. -/
def strTrim (s : String) : String :=
  String.mk (((s.toList.dropWhile Char.isWhitespace).reverse.dropWhile
    Char.isWhitespace).reverse)

/-- `s.replaceAll(pat, repl)` for a non-empty pattern: split and rejoin. -/
def strReplace (s pat repl : String) : String :=
  String.intercalate repl (jsSplit s pat)

/-! ## SQS queue dispatcher (packages/runtime queue handling) -/

/-- An SQS message as delivered inside a Lambda event batch. -/
structure SQSMessage where
  messageId : String
  eventSourceARN : String
  receiptHandle : String
  body : String
  /-- `attributes.MessageGroupId`; present only for FIFO deliveries. -/
  messageGroupId : Option String
deriving Repr, DecidableEq

/-- `getQueueName`: the short queue name parsed from the event source ARN.
The qualified name is the last `:`-separated field; the queue name is
everything after the first `__`. An unparseable ARN throws. -/
def getQueueName (m : SQSMessage) : Except String String :=
  let qualifiedName := ((jsSplit m.eventSourceARN ":").getLast?).getD ""
  match jsSplit qualifiedName "__" with
  | _ :: b :: rest =>
      let queueName := String.intercalate "__" (b :: rest)
      if queueName = "" then
        .error ("Could not parse queue name from " ++ qualifiedName)
      else .ok queueName
  | _ => .error ("Could not parse queue name from " ++ qualifiedName)

/-- `minTimeout` constant of the queue dispatcher (seconds). -/
def minTimeout : Int := 1

/-- `maxTimeout` constant of the queue dispatcher (seconds). -/
def maxTimeout : Int := 30

/-- `defaultTimeout` constant of the queue dispatcher (seconds). -/
def defaultTimeout : Int := 10

/-- A queue module's `config` export. -/
structure QueueConfig where
  timeout : Option Int := none
deriving Repr, DecidableEq

/-- `getTimeout` of the queue dispatcher:
`Math.min(Math.max(config?.timeout ?? defaultTimeout, minTimeout), maxTimeout)`. -/
def getTimeout (config : Option QueueConfig) : Int :=
  min (max ((config.bind QueueConfig.timeout).getD defaultTimeout) minTimeout) maxTimeout

/-- `isFifoQueue` (dispatcher in the queue-run package): a batch is FIFO
when the queue name ends with `.fifo`. -/
def isFifoQueue (m : SQSMessage) : Except String Bool :=
  (getQueueName m).map (fun name => strEndsWith name ".fifo")

/-- `isFifo` (runtime package `sqs.ts`): a message is FIFO when it carries a
truthy `MessageGroupId` attribute. -/
def isFifo (m : SQSMessage) : Bool :=
  match m.messageGroupId with
  | some s => s != ""
  | none => false

/-- Behaviour of a user queue handler on one message: how many
milliseconds it takes to settle, and whether it resolves (`ok`) or
rejects. -/
structure HandlerBehavior where
  duration : Int
  ok : Bool
deriving Repr, DecidableEq

/-- A loaded queue module: its `config` export (and whether it exports
`onError`, which does not affect the dispatch result). -/
structure QueueModule where
  config : Option QueueConfig
  hasOnError : Bool := false
deriving Repr, DecidableEq

/-- The dispatcher's environment: the SQS region (deletion is skipped for
`localhost`), the loadable queue modules, and the behaviour of each
message's handler. -/
structure QueueEnv where
  region : String
  modules : String → Option QueueModule
  behavior : SQSMessage → HandlerBehavior

/-- `handleOneMessage`: load the module, bound the timeout by the batch's
remaining time, race the handler against the abort signal, and on success
delete the message (unless running against localhost).  Returns whether
the message succeeded together with the list of deleted message ids. -/
def handleOneMessage (env : QueueEnv) (remainingTime : Int) (m : SQSMessage) :
    Except String (Bool × List String) :=
  match getQueueName m with
  | .error e => .error e
  | .ok queueName =>
    match env.modules queueName with
    | none => .error ("No handler for queue " ++ queueName)
    | some qm =>
      let timeout := min (getTimeout qm.config) remainingTime
      if timeout ≤ 0 then .ok (false, [])
      else
        let b := env.behavior m
        if b.duration < timeout * 1000 then
          if b.ok then
            if env.region ≠ "localhost" then .ok (true, [m.messageId])
            else .ok (true, [])
          else .ok (false, [])
        else .ok (false, [])

/-- `handleFifoMessages` loop: process messages in order; on the first
failure report that message and all remaining ones.  `remainingAt n` is
the value of `getRemainingTimeInMillis()` at the n-th call.  Returns
(failed message ids, deleted message ids). -/
def handleFifoMessagesAux (env : QueueEnv) (remainingAt : Nat → Int) (idx : Nat) :
    List SQSMessage → Except String (List String × List String)
  | [] => .ok ([], [])
  | m :: rest =>
    match handleOneMessage env (remainingAt idx) m with
    | .error e => .error e
    | .ok r =>
      if r.1 then
        match handleFifoMessagesAux env remainingAt (idx + 1) rest with
        | .error e => .error e
        | .ok r' => .ok (r'.1, r.2 ++ r'.2)
      else
        .ok ((m :: rest).map SQSMessage.messageId, r.2)

/-- `handleFifoMessages`: FIFO batch dispatch. -/
def handleFifoMessages (env : QueueEnv) (remainingAt : Nat → Int)
    (msgs : List SQSMessage) : Except String (List String × List String) :=
  handleFifoMessagesAux env remainingAt 0 msgs

/-- `handleStandardMessages` body: every message is dispatched
independently; the failure set collects the ids whose dispatch returned
false. -/
def handleStandardMessagesAux (env : QueueEnv) (remainingAt : Nat → Int) (idx : Nat) :
    List SQSMessage → Except String (List String × List String)
  | [] => .ok ([], [])
  | m :: rest =>
    match handleOneMessage env (remainingAt idx) m with
    | .error e => .error e
    | .ok r =>
      match handleStandardMessagesAux env remainingAt (idx + 1) rest with
      | .error e => .error e
      | .ok r' => .ok ((if r.1 then r'.1 else m.messageId :: r'.1), r.2 ++ r'.2)

/-- `handleStandardMessages`: standard batch dispatch. -/
def handleStandardMessages (env : QueueEnv) (remainingAt : Nat → Int)
    (msgs : List SQSMessage) : Except String (List String × List String) :=
  handleStandardMessagesAux env remainingAt 0 msgs

/-- `handleSQSMessages`: classify the batch by `isFifoQueue` applied to
the first message and dispatch accordingly. -/
def handleSQSMessages (env : QueueEnv) (remainingAt : Nat → Int)
    (msgs : List SQSMessage) : Except String (List String × List String) :=
  match msgs with
  | [] => .error "Cannot read eventSourceARN of undefined"
  | m :: _ =>
    match isFifoQueue m with
    | .error e => .error e
    | .ok fifo =>
      if fifo then handleFifoMessages env remainingAt msgs
      else handleStandardMessages env remainingAt msgs

/-! ## Ambient request-scoped context (shared/localStorage.ts) -/

/-- An authenticated user; only the `id` field matters to the engine. -/
structure User where
  id : String
deriving Repr, DecidableEq

/-- The mutable state of a `LocalStorage` context: the set-once user cell. -/
structure LocalStorageState where
  user : Option User := none
  userSet : Bool := false
deriving Repr, DecidableEq

/-- The `set user` accessor: fails on a second assignment, rejects a
non-null user without an id, and records `user ?? null`. -/
def setUser (s : LocalStorageState) (u : Option User) : Except String LocalStorageState :=
  if s.userSet then .error "Local context user already set"
  else
    match u with
    | some usr =>
      if usr.id = "" then .error "User ID is required"
      else .ok { s with user := some usr, userSet := true }
    | none => .ok { s with user := none, userSet := true }

/-- `getLocalStorage`: the currently installed context, failing closed
outside any context. -/
def getLocalStorage (store : Option LocalStorageState) : Except String LocalStorageState :=
  match store with
  | none => .error "Runtime not available"
  | some l => .ok l

/-- `withLocalStorage`: run a function inside a fresh context; nesting a
second context while one is live is rejected. -/
def withLocalStorage {α : Type} (current : Option LocalStorageState)
    (localStorage : LocalStorageState) (fn : Option LocalStorageState → α) :
    Except String α :=
  if current.isSome then .error "Can't nest runtimes"
  else .ok (fn (some localStorage))

/-- `exit`: run a callback with the context cleared (the escape hatch used
by the dev server's simulated enqueue). -/
def exit {α : Type} (current : Option LocalStorageState)
    (fn : Option LocalStorageState → α) : α :=
  fn none

/-! ## HTTP request engine (http/handleHTTPRequest.ts)

Fetch-style headers: names compare case-insensitively, `set` replaces. -/

/-- A header map.  Name lookup is case-insensitive, as in the fetch API. -/
structure Headers where
  entries : List (String × String)
deriving Repr, DecidableEq

/-- Header lookup (case-insensitive). -/
def Headers.get (h : Headers) (name : String) : Option String :=
  (h.entries.find? (fun kv => lowerStr kv.1 == lowerStr name)).map Prod.snd

/-- Header presence (case-insensitive). -/
def Headers.has (h : Headers) (name : String) : Bool :=
  (h.get name).isSome

/-- Replace-or-add a header. -/
def Headers.set (h : Headers) (name value : String) : Headers :=
  ⟨h.entries.filter (fun kv => lowerStr kv.1 != lowerStr name) ++ [(name, value)]⟩

/-- The empty header map. -/
def emptyHeaders : Headers := ⟨[]⟩

/-- `{...base, ...over}`: later keys override earlier ones. -/
def Headers.merge (base over : Headers) : Headers :=
  over.entries.foldl (fun acc kv => acc.set kv.1 kv.2) base

/-- Materialise an optional header map (`new Headers(corsHeaders)`). -/
def corsOrEmpty : Option Headers → Headers
  | some h => h
  | none => emptyHeaders

/-- An HTTP response: status, headers, body. -/
structure Response where
  status : Nat
  headers : Headers
  body : Option String
deriving Repr, DecidableEq

/-- An HTTP request as seen by the engine. -/
structure Request where
  method : String
  url : String
  headers : Headers
deriving Repr, DecidableEq

/-- A JavaScript thrown value: either a `Response` (control flow) or any
other error (carried as a message). -/
inductive Thrown where
  | resp (r : Response)
  | err (msg : String)
deriving Repr, DecidableEq

/-- What a request handler returned: a `Response`, a string or buffer, a
truthy JSON-serialisable value (carried in serialised form), or nothing. -/
inductive HandlerResult where
  | response (r : Response)
  | text (s : String)
  | json (serialized : String)
  | empty
deriving Repr, DecidableEq

/-- The resolved etag policy: `config.etag` after applying a function
policy, before the `?? true` default.  A boolean, or a user string. -/
inductive EtagPolicy where
  | ofBool (b : Bool)
  | ofString (s : String)
deriving Repr, DecidableEq

/-- JavaScript truthiness of the etag policy (`!etag`):
`false` and the empty string are falsy. -/
def etagFalsy : EtagPolicy → Bool
  | .ofBool b => !b
  | .ofString s => s == ""

/-- `addETag`: on a response without a pre-set `ETag` and a truthy etag
policy, set `ETag` to the user string, or to the MD5 digest of the body.
`md5` is the external digest collaborator. -/
def addETag (h : Headers) (content : String) (etag : EtagPolicy)
    (md5 : String → String) : Headers :=
  if h.has "ETag" || etagFalsy etag then h
  else
    h.set "ETag" (match etag with
      | .ofString s => s
      | .ofBool _ => md5 content)

/-- `addCacheControl`: on a response without a pre-set `Cache-Control` and
a truthy cache policy, set `private, max-age=N, must-revalidate`. -/
def addCacheControl (h : Headers) (cache : Option Int) : Headers :=
  match cache with
  | none => h
  | some n =>
    if h.has "Cache-Control" || n == 0 then h
    else h.set "Cache-Control" ("private, max-age=" ++ toString n ++ ", must-revalidate")

/-- `resultToResponse`: coerce a handler result into a `Response`.
ETag and Cache-Control are added only on the 200 paths. -/
def resultToResponse (cache : Option Int) (corsHeaders : Option Headers)
    (etag : EtagPolicy) (md5 : String → String) : HandlerResult → Response
  | .response r =>
    let headers := Headers.merge (corsOrEmpty corsHeaders) r.headers
    let headers :=
      if r.status = 200 then
        addCacheControl (addETag headers (r.body.getD "") etag md5) cache
      else headers
    ⟨r.status, headers, r.body⟩
  | .text s =>
    let headers := (corsOrEmpty corsHeaders).set "Content-Type" "text/plain; charset=utf-8"
    let headers := addCacheControl (addETag headers s etag md5) cache
    ⟨200, headers, some s⟩
  | .json s =>
    let headers := (corsOrEmpty corsHeaders).set "Content-Type" "application/json"
    let headers := addCacheControl (addETag headers s etag md5) cache
    ⟨200, headers, some s⟩
  | .empty => ⟨204, corsOrEmpty corsHeaders, none⟩

/-- `getCorsHeaders`: the CORS triple for a route, or nothing when CORS is
disabled. -/
def getCorsHeaders (cors : Bool) (methods : Option (List String)) : Option Headers :=
  if !cors then none
  else
    some ⟨[("Access-Control-Allow-Origin", "*"),
           ("Access-Control-Allow-Methods",
             match methods with
             | some ms => String.intercalate ", " ms
             | none => "*"),
           ("Access-Control-Allow-Headers", "Content-Type, Authorization")]⟩

/-- A route entry as produced by `findRoute`. -/
structure HTTPRoute where
  cors : Bool
  methods : List String
  accepts : List String
  timeout : Nat
  filename : String
deriving Repr, DecidableEq

/-- `checkRequest`: 405 when the method is not acceptable; for body-carrying
methods, 415 when the content type's primary token matches neither exactly
nor as a `type/*` family. -/
def checkRequest (req : Request) (route : HTTPRoute) : Except Response Unit :=
  if !(route.methods.contains "*" || route.methods.contains req.method) then
    .error ⟨405, emptyHeaders, some "Method Not Allowed"⟩
  else
    let hasBody := req.method ≠ "GET" ∧ req.method ≠ "HEAD"
    if h : ¬hasBody then .ok ()
    else if route.accepts.contains "*/*" then .ok ()
    else
      match req.headers.get "content-type" with
      | none => .error ⟨415, emptyHeaders, some "Unsupported Media Type"⟩
      | some ct =>
        let mimeType := strTrim ((jsSplit ct ";").headD "")
        if mimeType ≠ "" ∧
            (route.accepts.contains mimeType ∨
             route.accepts.contains (((jsSplit mimeType "/").headD "") ++ "/*")) then
          .ok ()
        else .error ⟨415, emptyHeaders, some "Unsupported Media Type"⟩

/-- Behaviour of one request handler invocation: settle time in
milliseconds and what it produced (a result, a thrown response, or a
thrown error). -/
inductive HandlerOutcome where
  | ok (r : HandlerResult)
  | throwResp (r : Response)
  | throwErr (e : String)
deriving Repr, DecidableEq

/-- A route handler export, as behaviour data. -/
structure HandlerSpec where
  outcome : HandlerOutcome
deriving Repr, DecidableEq

/-- A route module's handler exports, keyed by export name
(`"get"`, `"post"`, `"del"`, `"default"`, ...), with its config. -/
structure RouteConfigModel where
  /-- Resolved `config.cache` value (a function policy already applied). -/
  cache : Option Int := none
  /-- `config.etag` before the `?? true` default. -/
  etag : Option EtagPolicy := none
deriving Repr, DecidableEq

/-- A loaded route module. -/
structure RouteModule where
  exports : List (String × HandlerSpec)
  config : RouteConfigModel := {}
deriving Repr, DecidableEq

/-- `getHandler`: resolve the verb export.  `DELETE` falls back to `del`,
`HEAD` falls back to `get`, anything falls back to `default`; otherwise
405. -/
def getHandler (m : RouteModule) (method : String) : Except Response HandlerSpec :=
  match (m.exports.lookup (lowerStr method)).orElse
      (fun _ => (if method = "DELETE" then m.exports.lookup "del" else none).orElse
      (fun _ => (if method = "HEAD" then m.exports.lookup "get" else none).orElse
      (fun _ => m.exports.lookup "default"))) with
  | some h => .ok h
  | none => .error ⟨405, emptyHeaders, some "Method Not Allowed"⟩

/-- What the `authenticate` middleware does when invoked. -/
inductive AuthSpec where
  | returns (u : Option User)
  | throws (t : Thrown)
deriving Repr, DecidableEq

/-- The middleware chain attached to a route, as behaviour data.
`none` means the middleware is absent; for `onRequest`, `some t` says
whether the invocation throws.  `onResponse` behaviour may depend on the
response it is given.  `onError` records only whether it throws. -/
structure RouteMiddlewareSpec where
  onRequest : Option (Option Thrown) := none
  authenticate : Option AuthSpec := none
  onResponse : Option (Response → Option Thrown) := none
  onError : Option Bool := none

/-- The outcome of `runWithMiddleware`: the response, whether the route
handler was invoked, and the final state of the ambient user cell. -/
structure RunResult where
  response : Response
  handlerInvoked : Bool
  store : LocalStorageState
deriving Repr, DecidableEq

/-- `handleOnResponse`: run `onResponse`; a thrown response replaces the
response, any other throw reports to `onError` and yields a 500. -/
def handleOnResponse (mw : RouteMiddlewareSpec) (response : Response) : Response :=
  match mw.onResponse with
  | none => response
  | some behave =>
    match behave response with
    | none => response
    | some (.resp r) => r
    | some (.err _) => ⟨500, emptyHeaders, some "Internal Server Error"⟩

/-- `handleOnError`: a thrown `Response` becomes the response (and
`onError` is not invoked); any other thrown value yields a 500 and invokes
`onError`.  `onResponse` is invoked with the intended response and may
replace it by throwing a new one. -/
def handleOnError (mw : RouteMiddlewareSpec) (error : Thrown) : Response :=
  let response : Response :=
    match error with
    | .resp r => r
    | .err _ => ⟨500, emptyHeaders, some "Internal Server Error"⟩
  match mw.onResponse with
  | none => response
  | some behave =>
    match behave response with
    | some (.resp r) => r
    | _ => response

/-- `runWithMiddleware`: onRequest, authenticate (a missing id is a 403),
pin the user to the ambient context, invoke the handler, coerce the
result, and run the response/error middleware. -/
def runWithMiddleware (config : RouteConfigModel) (corsHeaders : Option Headers)
    (mw : RouteMiddlewareSpec) (handler : HandlerSpec) (md5 : String → String)
    (ls : LocalStorageState) : RunResult :=
  -- onRequest may throw before anything else happens
  match mw.onRequest with
  | some (some t) => ⟨handleOnError mw t, false, ls⟩
  | _ =>
    match mw.authenticate with
    | some (.throws t) => ⟨handleOnError mw t, false, ls⟩
    | auth =>
      let user : Option User :=
        match auth with
        | some (.returns u) => u
        | _ => none
      -- `if (authenticate && !user?.id) throw new Response("Forbidden", 403)`
      if auth.isSome && (match user with
          | some u => u.id == ""
          | none => true) then
        ⟨handleOnError mw (.resp ⟨403, emptyHeaders, some "Forbidden"⟩), false, ls⟩
      else
        match setUser ls user with
        | .error e => ⟨handleOnError mw (.err e), false, ls⟩
        | .ok ls' =>
          match handler.outcome with
          | .throwResp r => ⟨handleOnError mw (.resp r), true, ls'⟩
          | .throwErr e => ⟨handleOnError mw (.err e), true, ls'⟩
          | .ok result =>
            let etag := config.etag.getD (.ofBool true)
            let response := resultToResponse config.cache corsHeaders etag md5 result
            ⟨handleOnResponse mw response, true, ls'⟩

/-- The outcome of `handleRoute`: the response returned to the caller and
whether the abort controller's signal (the same signal placed in the
handler metadata) fired before the pipeline settled. -/
structure HandleRouteResult where
  response : Response
  signalFiredBeforeSettle : Bool
  run : RunResult
deriving Repr, DecidableEq

/-- `handleRoute`: race the middleware-wrapped handler against a timer of
`timeout` seconds.  `runDuration` is the time in milliseconds at which the
pipeline would settle; when the deadline elapses first the signal fires
and the engine responds 500 "Timed Out". -/
def handleRoute (timeout : Nat) (runDuration : Nat) (config : RouteConfigModel)
    (corsHeaders : Option Headers) (mw : RouteMiddlewareSpec) (handler : HandlerSpec)
    (md5 : String → String) (ls : LocalStorageState) : HandleRouteResult :=
  let rr := runWithMiddleware config corsHeaders mw handler md5 ls
  if runDuration < timeout * 1000 then ⟨rr.response, false, rr⟩
  else ⟨⟨500, emptyHeaders, some "Timed Out"⟩, true, rr⟩

/-- `handleHTTPRequest` (after route resolution): CORS preflight first,
then handler resolution, method and content-type checks, then the
timeout-bounded pipeline.  Thrown responses surface as the response.
Returns the response and whether the route handler was invoked. -/
def handleHTTPRequest (req : Request) (route : HTTPRoute) (m : RouteModule)
    (mw : RouteMiddlewareSpec) (md5 : String → String) (ls : LocalStorageState)
    (runDuration : Nat) : Response × Bool :=
  let corsHeaders := getCorsHeaders route.cors (some route.methods)
  if route.cors ∧ req.method = "OPTIONS" then
    (⟨204, corsOrEmpty corsHeaders, none⟩, false)
  else
    match getHandler m req.method with
    | .error r => (r, false)
    | .ok handler =>
      match checkRequest req route with
      | .error r => (r, false)
      | .ok _ =>
        let out := handleRoute route.timeout runDuration m.config corsHeaders mw
          handler md5 ls
        (out.response, out.run.handlerInvoked)

/-! ## Manifest loader (loadServices: filesystem path grammar, duplicate
shapes) -/

/-- A character acceptable inside a `path-to-regexp` parameter name:
`[A-Za-z0-9_]`. -/
def isNameChar (c : Char) : Bool := c.isAlphanum || c == '_'

/-- A character of the `[a-z0-9_-]` (case-insensitive) class used by the
filename grammar. -/
def isPartChar (c : Char) : Bool := c.isAlphanum || c == '_' || c == '-'

/-- Bracket translation for one path segment:
`[x]` becomes `:x` and `[...x]` becomes `:x*`. -/
def renamePart (part : String) : String :=
  if strStartsWith part "[..." && strEndsWith part "]" && part.length ≥ 5 then
    ":" ++ ((part.drop 4).dropRight 1) ++ "*"
  else if strStartsWith part "[" && strEndsWith part "]" && part.length ≥ 2 then
    ":" ++ ((part.drop 1).dropRight 1)
  else part

/-- `renamePathProperties`: apply bracket translation per segment. -/
def renamePathProperties (s : String) : String :=
  String.intercalate "/" ((jsSplit s "/").map renamePart)

/-- Collapse runs of `/` into one (`replace(/\/+/g, "/")`). -/
def collapseSlashes (s : String) : String :=
  String.mk ((s.toList.foldl
    (fun acc c => if c = '/' ∧ acc.headD ' ' = '/' then acc else c :: acc) []).reverse)

/-- `expandNestedRoutes`: a dot nests a segment (`foo.bar` ≡ `foo/bar`). -/
def expandNestedRoutes (s : String) : String :=
  collapseSlashes (strReplace s "." "/")

/-- `path.basename`: the last `/`-separated component. -/
def basenameOf (s : String) : String :=
  ((jsSplit s "/").getLast?).getD s

/-- `path.extname`: the suffix from the last dot of the basename, empty
when the only dot leads the basename. -/
def extnameOf (s : String) : String :=
  let cs := (basenameOf s).toList
  match ((List.range cs.length).filter (fun i => cs.getD i ' ' = '.')).getLast? with
  | some i => if i > 0 then String.mk (cs.drop i) else ""
  | none => ""

/-- `path.basename(s, extname(s))`: basename with its extension removed. -/
def basenameNoExt (s : String) : String :=
  let b := basenameOf s
  let e := extnameOf s
  if e ≠ "" ∧ strEndsWith b e ∧ b ≠ e then b.dropRight e.length else b

/-- `path.dirname`: everything before the last component, `.` when there
is none. -/
def dirnameOf (s : String) : String :=
  match (jsSplit s "/").dropLast with
  | [] => "."
  | parts => String.intercalate "/" parts

/-- The parameter keys `path-to-regexp` extracts from a template: scan for
`:` followed by a run of name characters; a `*` immediately after marks
the catch-all modifier.  Returns (name, isCatchAll) in order.  The fuel
starts at the length of the scanned characters and is never exhausted. -/
def keysGo : Nat → List Char → List (String × Bool)
  | _, [] => []
  | 0, _ => []
  | fuel + 1, c :: rest =>
    if c = ':' then
      let name := rest.takeWhile isNameChar
      let after := rest.dropWhile isNameChar
      let star := after.head? = some '*'
      (String.mk name, star) :: keysGo fuel (if star then after.tail else after)
    else keysGo fuel rest

/-- Keys of a path template. -/
def keysOf (path : String) : List (String × Bool) :=
  keysGo path.toList.length path.toList

/-- `isValidPathPart`: the (buggy, faithfully modelled) segment grammar
`/^([a-z0-9_-]+)|(:[a-z0-9_-]+\*?)$/i` — a literal run anchored only at
the start, or a parameter anchored only at the end. -/
def isValidPathPart (part : String) : Bool :=
  (match part.toList.head? with
   | some c => isPartChar c
   | none => false)
  ||
  (let core := if strEndsWith part "*" then part.dropRight 1 else part
   let rcs := core.toList.reverse
   (!(rcs.takeWhile isPartChar).isEmpty) && (rcs.dropWhile isPartChar).head? = some ':')

/-- The last validation step of `verifyPathParameters`: every segment
must satisfy the segment grammar. -/
def checkPathParts (path : String) : Except String Unit :=
  if !((jsSplit path "/").all isValidPathPart) then
    .error "Path parts may only be alphanumeric, dash, underscore, or dot"
  else .ok ()

/-- `verifyPathParameters`: duplicate parameter names are rejected, a
catch-all may only be the last parameter, and every segment must satisfy
the segment grammar. -/
def verifyPathParameters (path : String) : Except String Unit :=
  let keys := keysOf path
  if ((keys.map Prod.fst).dedup).length < keys.length then
    .error "Found two parameters with the same name"
  else
    match keys.findIdx? (fun k => k.2) with
    | some i =>
      if i ≠ keys.length - 1 then
        .error "The catch-all parameter can only come at the end of the path"
      else checkPathParts path
    | none => checkPathParts path

/-- `pathFromFilename`: filename to canonical route path — drop the
extension, collapse `/index`, translate brackets, expand dot-nesting,
then validate. -/
def pathFromFilename (filename : String) : Except String String :=
  let basename := basenameNoExt filename
  let directory := dirnameOf filename
  let withoutIndex := if basename = "index" then directory else directory ++ "/" ++ basename
  let renamed := renamePathProperties withoutIndex
  let expanded := expandNestedRoutes renamed
  match verifyPathParameters expanded with
  | .error e => .error e
  | .ok _ => .ok expanded

/-- The collision signature (`path.replace(/:(.*?)(\/|$)/g, ":$2")`):
from each `:` the scan lazily drops everything up to the next `/` or the
end of the string. -/
def sigAux (skipping : Bool) : List Char → List Char
  | [] => []
  | c :: rest =>
    if skipping then
      if c = '/' then '/' :: sigAux false rest else sigAux true rest
    else
      if c = ':' then ':' :: sigAux true rest else c :: sigAux false rest

/-- The "shape" of a route path: every `:name` parameter replaced by a
bare `:`. -/
def signatureOf (path : String) : String := String.mk (sigAux false path.toList)

/-- Strip the leading `api/` part (`filename.replace(/^api\//, "")`). -/
def stripApi (f : String) : String := if strStartsWith f "api/" then f.drop 4 else f

/-- The canonical route path of a file under `api/`. -/
def routePathOf (filename : String) : Except String String :=
  pathFromFilename (stripApi filename)

/-- One route of the produced manifest. -/
structure RouteEntry where
  path : String
  filename : String
deriving Repr, DecidableEq

/-- One iteration of the `loadRoutes` loop: translate the file, reject a
path whose shape was already seen, and record the route.  Any error is
wrapped file-scoped as `Error in "<filename>": Error: <message>`; an
earlier error aborts the loop (it propagates unchanged). -/
def loadRouteStep (st : Except String (List String × List RouteEntry)) (f : String) :
    Except String (List String × List RouteEntry) :=
  match st with
  | .error e => .error e
  | .ok (dupes, acc) =>
    match routePathOf f with
    | .error e => .error ("Error in \"" ++ f ++ "\": Error: " ++ e)
    | .ok path =>
      let signature := signatureOf path
      if signature ∈ dupes then
        .error ("Error in \"" ++ f ++ "\": Error: " ++
          "An identical route already exists, maybe with different parameter names")
      else .ok (signature :: dupes, acc ++ [⟨path, f⟩])

/-- The `loadRoutes` loop over the remaining files, from a given duplicate
set and accumulated routes. -/
def loadRoutesAux (dupes : List String) (acc : List RouteEntry)
    (files : List String) : Except String (List RouteEntry) :=
  (files.foldl loadRouteStep (.ok (dupes, acc))).map Prod.snd

/-- `loadRoutes` over the files enumerated under `api/`. -/
def loadRoutes (files : List String) : Except String (List RouteEntry) :=
  loadRoutesAux [] [] files

/-! ## Concrete instances used to evaluate the model -/

/-- A dispatcher environment with one queue module `tasks` (timeout 30s)
whose handler fails exactly on the message with id `B`. -/
def wQueueEnv : QueueEnv :=
  { region := "us-east-1",
    modules := fun n =>
      if n = "tasks" then some { config := some { timeout := some 30 } } else none,
    behavior := fun m => { duration := 0, ok := m.messageId != "B" } }

/-- Event source ARN of the `tasks` queue. -/
def wArn : String := "arn:aws:sqs:us-east-1:123456789012:proj__tasks"

/-- First message of the concrete FIFO batch. -/
def wMsgA : SQSMessage := ⟨"A", wArn, "rh-a", "p", none⟩

/-- Second message of the concrete FIFO batch (its handler fails). -/
def wMsgB : SQSMessage := ⟨"B", wArn, "rh-b", "p", none⟩

/-- Third message of the concrete FIFO batch. -/
def wMsgC : SQSMessage := ⟨"C", wArn, "rh-c", "p", none⟩

/-- A remaining-time oracle with ample budget. -/
def wRem : Nat → Int := fun _ => 100000

/-- A message on a non-`.fifo` queue that carries a `MessageGroupId`. -/
def groupIdMessage : SQSMessage :=
  ⟨"m-2", "arn:aws:sqs:us-east-2:123456789012:proj-main__tasks", "rh-2", "p",
   some "group-1"⟩

/-- A message on a `.fifo`-named queue without a `MessageGroupId`. -/
def fifoNamedMessage : SQSMessage :=
  ⟨"m-1", "arn:aws:sqs:us-east-2:123456789012:proj-main__tasks.fifo", "rh-1", "p",
   none⟩

/-- A handler that returns the text `hello`. -/
def wHandler : HandlerSpec := { outcome := .ok (.text "hello") }

/-- A stand-in for the MD5 collaborator in concrete runs. -/
def wMd5 : String → String := fun s => "md5-" ++ s

/-- A CORS-enabled route accepting GET and POST. -/
def wRoute : HTTPRoute :=
  { cors := true, methods := ["GET", "POST"], accepts := ["*/*"], timeout := 30,
    filename := "api/x.ts" }

/-- A route module exporting a `get` handler. -/
def wModule : RouteModule := { exports := [("get", wHandler)] }

/-- An OPTIONS preflight request. -/
def wRequest : Request := { method := "OPTIONS", url := "/x", headers := ⟨[]⟩ }

/-- A middleware chain whose `authenticate` returns null. -/
def wAuthNullMw : RouteMiddlewareSpec := { authenticate := some (.returns none) }

/-- A non-200 response carrying a custom header. -/
def wResp404 : Response := ⟨404, ⟨[("X-Custom", "1")]⟩, some "nope"⟩

/-! ## Theorems -/

/-- **C2 counterexample**: the queue dispatcher's per-message timeout does
not default to 30 seconds and cannot be configured up to 500 seconds: with
no configured value the timeout is 10 seconds, and a configured 500 is
clamped down to 30. -/
theorem queue_timeout_counterexample :
    getTimeout none = 10 ∧ getTimeout none ≠ 30 ∧
    getTimeout (some { timeout := some 500 }) = 30 ∧
    getTimeout (some { timeout := some 500 }) ≠ 500 := by
  refine ⟨rfl, by decide, rfl, by decide⟩

/-- **C2 (amended)**: the queue dispatcher's per-message timeout defaults
to 10 seconds, is clamped to [1, 30] seconds (a configured value in that
range is used as is), and the dispatcher bounds it further by the batch's
remaining time: when `min(configured, remaining) ≤ 0` the message is
reported failed without running the handler. -/
theorem queue_timeout_clamped (cfg : Option QueueConfig) (t : Int)
    (ht1 : 1 ≤ t) (ht2 : t ≤ 30)
    (env : QueueEnv) (rem : Int) (m : SQSMessage) (qn : String) (qm : QueueModule)
    (hqn : getQueueName m = .ok qn) (hmod : env.modules qn = some qm)
    (hneg : min (getTimeout qm.config) rem ≤ 0) :
    getTimeout none = 10 ∧
    1 ≤ getTimeout cfg ∧ getTimeout cfg ≤ 30 ∧
    getTimeout (some { timeout := some t }) = t ∧
    handleOneMessage env rem m = .ok (false, []) := by
  refine ⟨rfl, ?_, ?_, ?_, ?_⟩
  · exact le_min (le_max_right _ _) (by norm_num [maxTimeout])
  · exact min_le_right _ _
  · show min (max ((Option.bind _ _).getD _) _) _ = t
    simp only [Option.bind, QueueConfig.timeout, Option.getD, minTimeout, maxTimeout]
    rw [max_eq_left ht1, min_eq_left ht2]
  · unfold handleOneMessage
    simp only [hqn, hmod]
    rw [if_pos hneg]

/-- **C2 witness**: the amended statement evaluated at a concrete queue
module and a batch that has run out of time. -/
theorem queue_timeout_clamped_witness :
    getTimeout none = 10 ∧
    1 ≤ getTimeout (some { timeout := some 7 }) ∧
    getTimeout (some { timeout := some 7 }) ≤ 30 ∧
    getTimeout (some { timeout := some 7 }) = 7 ∧
    handleOneMessage wQueueEnv 0 wMsgA = .ok (false, []) :=
  queue_timeout_clamped (some { timeout := some 7 }) 7 (by decide) (by decide)
    wQueueEnv 0 wMsgA "tasks" { config := some { timeout := some 30 } }
    rfl rfl (by decide)

/-- **C3 counterexample**: classification is not the disjunction the claim
states.  `groupIdMessage` carries a `MessageGroupId` but its queue name
has no `.fifo` suffix: the queue-run dispatcher (`isFifoQueue`) classifies
it standard, even though the claim requires FIFO.  Dually,
`fifoNamedMessage` has the `.fifo` suffix but no group id, and the runtime
dispatcher (`isFifo`) classifies it standard. -/
theorem fifo_classification_counterexample :
    groupIdMessage.messageGroupId = some "group-1" ∧
    isFifoQueue groupIdMessage = .ok false ∧
    isFifo groupIdMessage = true ∧
    fifoNamedMessage.messageGroupId = none ∧
    isFifoQueue fifoNamedMessage = .ok true ∧
    isFifo fifoNamedMessage = false :=
  ⟨rfl, rfl, rfl, rfl, rfl, rfl⟩

/-- **C3 (amended)**: each dispatcher uses a single condition, not their
disjunction.  The queue-run dispatcher classifies a batch FIFO exactly
when the first message's queue name ends in `.fifo` (ignoring
`MessageGroupId`), and dispatches the whole batch accordingly; the runtime
`sqs.ts` dispatcher classifies a message FIFO exactly when it carries a
non-empty `MessageGroupId` (ignoring the queue name). -/
theorem fifo_classification (m : SQSMessage) (qn : String) (rest : List SQSMessage)
    (env : QueueEnv) (remainingAt : Nat → Int)
    (hqn : getQueueName m = .ok qn) :
    isFifoQueue m = .ok (strEndsWith qn ".fifo") ∧
    (isFifo m = true ↔ ∃ s, m.messageGroupId = some s ∧ s ≠ "") ∧
    handleSQSMessages env remainingAt (m :: rest) =
      (if strEndsWith qn ".fifo" then handleFifoMessages env remainingAt (m :: rest)
       else handleStandardMessages env remainingAt (m :: rest)) := by
  refine ⟨?_, ?_, ?_⟩
  · simp [isFifoQueue, hqn, Except.map]
  · cases hg : m.messageGroupId with
    | none => simp [isFifo, hg]
    | some s => simp [isFifo, hg, bne_iff_ne]
  · have hclass : isFifoQueue m = .ok (strEndsWith qn ".fifo") := by
      simp [isFifoQueue, hqn, Except.map]
    show (match isFifoQueue m with
      | .error e => Except.error e
      | .ok fifo =>
        if fifo then handleFifoMessages env remainingAt (m :: rest)
        else handleStandardMessages env remainingAt (m :: rest)) = _
    rw [hclass]

/-- **C3 witness**: the amended statement evaluated on the `.fifo`-named
message. -/
theorem fifo_classification_witness :
    isFifoQueue fifoNamedMessage = .ok (strEndsWith "tasks.fifo" ".fifo") ∧
    (isFifo fifoNamedMessage = true ↔
      ∃ s, fifoNamedMessage.messageGroupId = some s ∧ s ≠ "") ∧
    handleSQSMessages wQueueEnv wRem (fifoNamedMessage :: []) =
      (if strEndsWith "tasks.fifo" ".fifo" then
        handleFifoMessages wQueueEnv wRem (fifoNamedMessage :: [])
       else handleStandardMessages wQueueEnv wRem (fifoNamedMessage :: [])) :=
  fifo_classification fifoNamedMessage "tasks.fifo" [] wQueueEnv wRem rfl

/-- **C4**: the ambient user cell transitions exactly once: on a fresh
context the first assignment — of a user with an id, or of null — succeeds,
and any second assignment to the resulting context fails. -/
theorem user_cell_set_once (s : LocalStorageState) (u : Option User)
    (hfresh : s.userSet = false)
    (hvalid : ∀ usr, u = some usr → usr.id ≠ "") :
    ∃ s', setUser s u = .ok s' ∧
      ∀ v, setUser s' v = .error "Local context user already set" := by
  cases u with
  | none =>
    refine ⟨{ s with user := none, userSet := true }, ?_, ?_⟩
    · simp [setUser, hfresh]
    · intro v; simp [setUser]
  | some usr =>
    have hid := hvalid usr rfl
    refine ⟨{ s with user := some usr, userSet := true }, ?_, ?_⟩
    · simp [setUser, hfresh, hid]
    · intro v; simp [setUser]

/-- **C4 witness**: a fresh context accepts `alice` once and rejects any
second assignment. -/
theorem user_cell_set_once_witness :
    ∃ s', setUser {} (some ⟨"alice"⟩) = .ok s' ∧
      ∀ v, setUser s' v = .error "Local context user already set" :=
  user_cell_set_once {} (some ⟨"alice"⟩) rfl
    (fun usr h => by cases h; decide)

/-- **C9**: outside any event context the ambient accessor throws
"Runtime not available"; opening a second context while one is live fails;
and the explicit escape primitive runs its callback with the context
cleared, so ambient access inside it fails closed. -/
theorem ambient_context_guards :
    getLocalStorage none = .error "Runtime not available" ∧
    (∀ (α : Type) (l l' : LocalStorageState) (fn : Option LocalStorageState → α),
      withLocalStorage (some l) l' fn = .error "Can't nest runtimes") ∧
    (∀ (α : Type) (current : Option LocalStorageState)
      (fn : Option LocalStorageState → α), exit current fn = fn none) ∧
    (∀ (current : Option LocalStorageState),
      exit current (fun store => getLocalStorage store) =
        .error "Runtime not available") :=
  ⟨rfl, fun _ _ _ _ => rfl, fun _ _ _ => rfl, fun _ => rfl⟩

/-- A successful `handleOneMessage` run deletes exactly its message
(outside local mode). -/
theorem handleOneMessage_ok_true (env : QueueEnv) (rem : Int) (m : SQSMessage)
    (hreg : env.region ≠ "localhost")
    (h : (handleOneMessage env rem m).map Prod.fst = .ok true) :
    handleOneMessage env rem m = .ok (true, [m.messageId]) := by
  unfold handleOneMessage at h ⊢
  cases hq : getQueueName m with
  | error e =>
    rw [hq] at h
    simp [Except.map] at h
  | ok qn =>
    rw [hq] at h
    dsimp only at h ⊢
    cases hm : env.modules qn with
    | none =>
      rw [hm] at h
      simp [Except.map] at h
    | some qm =>
      rw [hm] at h
      dsimp only at h ⊢
      split_ifs at h ⊢ <;> simp_all [Except.map]

/-- A failed `handleOneMessage` run deletes nothing. -/
theorem handleOneMessage_ok_false (env : QueueEnv) (rem : Int) (m : SQSMessage)
    (h : (handleOneMessage env rem m).map Prod.fst = .ok false) :
    handleOneMessage env rem m = .ok (false, []) := by
  unfold handleOneMessage at h ⊢
  cases hq : getQueueName m with
  | error e =>
    rw [hq] at h
    simp [Except.map] at h
  | ok qn =>
    rw [hq] at h
    dsimp only at h ⊢
    cases hm : env.modules qn with
    | none =>
      rw [hm] at h
      simp [Except.map] at h
    | some qm =>
      rw [hm] at h
      dsimp only at h ⊢
      split_ifs at h ⊢ <;> simp_all [Except.map]

/-- Generalisation of the FIFO cutoff over the position in the batch. -/
theorem fifo_cutoff_aux (env : QueueEnv) (remainingAt : Nat → Int)
    (hreg : env.region ≠ "localhost") :
    ∀ (msgs : List SQSMessage) (idx k : Nat) (hk : k < msgs.length),
      (∀ i (hi : i < msgs.length), i < k →
        (handleOneMessage env (remainingAt (idx + i)) (msgs.get ⟨i, hi⟩)).map Prod.fst
          = .ok true) →
      (handleOneMessage env (remainingAt (idx + k)) (msgs.get ⟨k, hk⟩)).map Prod.fst
          = .ok false →
      handleFifoMessagesAux env remainingAt idx msgs =
        .ok ((msgs.drop k).map SQSMessage.messageId,
             (msgs.take k).map SQSMessage.messageId) := by
  intro msgs
  induction msgs with
  | nil => intro idx k hk; exact absurd hk (by simp)
  | cons m rest ih =>
    intro idx k hk hsucc hfail
    cases k with
    | zero =>
      have h0 : handleOneMessage env (remainingAt (idx + 0)) m = .ok (false, []) :=
        handleOneMessage_ok_false _ _ _ (by simpa using hfail)
      rw [Nat.add_zero] at h0
      simp [handleFifoMessagesAux, h0]
    | succ k' =>
      have h0 : handleOneMessage env (remainingAt idx) m = .ok (true, [m.messageId]) := by
        have hs := hsucc 0 (by simp) (by omega)
        rw [Nat.add_zero] at hs
        exact handleOneMessage_ok_true _ _ _ hreg (by simpa using hs)
      have hrest := ih (idx + 1) k' (by simpa using Nat.lt_of_succ_lt_succ hk)
        (fun i hi hik => by
          have hs := hsucc (i + 1) (by simpa using Nat.succ_lt_succ hi)
            (Nat.succ_lt_succ hik)
          have heq : idx + (i + 1) = (idx + 1) + i := by omega
          rw [heq] at hs
          simpa using hs)
        (by
          have hf := hfail
          have heq : idx + (k' + 1) = (idx + 1) + k' := by omega
          rw [heq] at hf
          simpa using hf)
      simp [handleFifoMessagesAux, h0, hrest]

/-- **C1**: FIFO batch semantics — messages are processed sequentially in
arrival order; if the message at index `k` is the first to fail, the
reported failure set is exactly the messages from index `k` to the end of
the batch, and every earlier message has already been deleted from the
queue. -/
theorem fifo_batch_cutoff (env : QueueEnv) (remainingAt : Nat → Int)
    (msgs : List SQSMessage) (k : Nat) (hk : k < msgs.length)
    (hreg : env.region ≠ "localhost")
    (hsucc : ∀ i (hi : i < msgs.length), i < k →
      (handleOneMessage env (remainingAt i) (msgs.get ⟨i, hi⟩)).map Prod.fst = .ok true)
    (hfail : (handleOneMessage env (remainingAt k) (msgs.get ⟨k, hk⟩)).map Prod.fst
      = .ok false) :
    handleFifoMessages env remainingAt msgs =
      .ok ((msgs.drop k).map SQSMessage.messageId,
           (msgs.take k).map SQSMessage.messageId) := by
  have h := fifo_cutoff_aux env remainingAt hreg msgs 0 k hk
    (fun i hi hik => by simpa using hsucc i hi hik)
    (by simpa using hfail)
  simpa [handleFifoMessages] using h

/-- **C1 witness**: in the batch `[A, B, C]` where `B`'s handler fails,
the reported failures are `[B, C]` and `A` was deleted. -/
theorem fifo_batch_cutoff_witness :
    handleFifoMessages wQueueEnv wRem [wMsgA, wMsgB, wMsgC] =
      .ok (["B", "C"], ["A"]) := by
  have h := fifo_batch_cutoff wQueueEnv wRem [wMsgA, wMsgB, wMsgC] 1
    (by decide) (by decide)
    (fun i hi hik => by
      cases i with
      | zero => rfl
      | succ n => omega)
    rfl
  rw [h]
  rfl

/-- **C5**: the HTTP timeout races the pipeline against a deadline of
`timeout` seconds.  If the pipeline has not settled when the deadline
elapses, the cancellation signal placed in the handler metadata fires and
the engine responds 500 with body "Timed Out"; if the pipeline settles
first, its response is returned and the signal has not fired.  Whichever
resolves first determines the outcome. -/
theorem http_timeout_race (timeout runDuration : Nat) (config : RouteConfigModel)
    (corsHeaders : Option Headers) (mw : RouteMiddlewareSpec) (handler : HandlerSpec)
    (md5 : String → String) (ls : LocalStorageState) :
    (timeout * 1000 ≤ runDuration →
      handleRoute timeout runDuration config corsHeaders mw handler md5 ls =
        ⟨⟨500, emptyHeaders, some "Timed Out"⟩, true,
         runWithMiddleware config corsHeaders mw handler md5 ls⟩) ∧
    (runDuration < timeout * 1000 →
      handleRoute timeout runDuration config corsHeaders mw handler md5 ls =
        ⟨(runWithMiddleware config corsHeaders mw handler md5 ls).response, false,
         runWithMiddleware config corsHeaders mw handler md5 ls⟩) := by
  constructor <;> intro h
  · unfold handleRoute
    rw [if_neg (by omega)]
  · unfold handleRoute
    rw [if_pos h]

/-- **C5 witness**: a handler that would settle after 5 seconds on a route
with a 1-second timeout yields 500 "Timed Out" with the signal fired. -/
theorem http_timeout_race_witness :
    handleRoute 1 5000 {} none {} wHandler wMd5 {} =
      ⟨⟨500, emptyHeaders, some "Timed Out"⟩, true,
       runWithMiddleware {} none {} wHandler wMd5 {}⟩ :=
  (http_timeout_race 1 5000 {} none {} wHandler wMd5 {}).1 (by omega)

/-- **C7**: for a CORS-enabled route, an OPTIONS request short-circuits the
whole pipeline: the response is 204 with the CORS triple (allow-origin `*`,
allow-methods from the route's method set, allow-headers
`Content-Type, Authorization`), the handler is never invoked, and the
result does not depend on the module, the middleware, or the ambient
state. -/
theorem cors_preflight (req : Request) (route : HTTPRoute) (m : RouteModule)
    (mw : RouteMiddlewareSpec) (md5 : String → String) (ls : LocalStorageState)
    (runDuration : Nat) (hcors : route.cors = true) (hm : req.method = "OPTIONS") :
    handleHTTPRequest req route m mw md5 ls runDuration =
      (⟨204, ⟨[("Access-Control-Allow-Origin", "*"),
               ("Access-Control-Allow-Methods", String.intercalate ", " route.methods),
               ("Access-Control-Allow-Headers", "Content-Type, Authorization")]⟩,
        none⟩, false) := by
  unfold handleHTTPRequest
  simp [hcors, hm, getCorsHeaders, corsOrEmpty]

/-- **C7 witness**: the preflight response on the concrete GET/POST route. -/
theorem cors_preflight_witness :
    handleHTTPRequest wRequest wRoute wModule {} wMd5 {} 0 =
      (⟨204, ⟨[("Access-Control-Allow-Origin", "*"),
               ("Access-Control-Allow-Methods", String.intercalate ", " wRoute.methods),
               ("Access-Control-Allow-Headers", "Content-Type, Authorization")]⟩,
        none⟩, false) :=
  cors_preflight wRequest wRoute wModule {} wMd5 {} 0 rfl rfl

/-- Setting a header makes it the value found under its own name. -/
theorem Headers.get_set_self (h : Headers) (n v : String) :
    (h.set n v).get n = some v := by
  unfold Headers.get Headers.set
  rw [List.find?_append]
  have hleft : (h.entries.filter
      (fun kv => lowerStr kv.1 != lowerStr n)).find?
      (fun kv => lowerStr kv.1 == lowerStr n) = none := by
    rw [List.find?_eq_none]
    intro kv hkv
    have := List.of_mem_filter hkv
    simp only [bne_iff_ne, ne_eq] at this
    simp [this]
  rw [hleft]
  simp

/-- Setting a header leaves lookups under other names unchanged. -/
theorem Headers.get_set_ne (h : Headers) (n v q : String)
    (hne : lowerStr q ≠ lowerStr n) : (h.set n v).get q = h.get q := by
  unfold Headers.get Headers.set
  rw [List.find?_append]
  have hfilter : (h.entries.filter
      (fun kv => lowerStr kv.1 != lowerStr n)).find?
      (fun kv => lowerStr kv.1 == lowerStr q) =
      h.entries.find? (fun kv => lowerStr kv.1 == lowerStr q) := by
    induction h.entries with
    | nil => rfl
    | cons kv t ih =>
      by_cases hkv : lowerStr kv.1 = lowerStr q
      · have hq : (lowerStr kv.1 != lowerStr n) = true := by
          simp only [bne_iff_ne, ne_eq]
          rw [hkv]
          exact hne
        rw [List.filter_cons, if_pos hq]
        rw [List.find?_cons_of_pos _ (by simp [hkv]),
          List.find?_cons_of_pos _ (by simp [hkv])]
      · by_cases hqn : (lowerStr kv.1 != lowerStr n) = true
        · rw [List.filter_cons, if_pos hqn]
          rw [List.find?_cons_of_neg _ (by simp [hkv]),
            List.find?_cons_of_neg _ (by simp [hkv]), ih]
        · rw [List.filter_cons, if_neg hqn]
          rw [List.find?_cons_of_neg _ (by simp [hkv]), ih]
  rw [hfilter]
  have hsingle : List.find? (fun kv => lowerStr kv.1 == lowerStr q) [(n, v)] = none := by
    simp [Ne.symm hne]
  rw [hsingle]
  cases h.entries.find? (fun kv => lowerStr kv.1 == lowerStr q) <;> rfl

/-- Setting a header does not affect presence of other names. -/
theorem Headers.has_set_ne (h : Headers) (n v q : String)
    (hne : lowerStr q ≠ lowerStr n) : (h.set n v).has q = h.has q := by
  unfold Headers.has
  rw [Headers.get_set_ne h n v q hne]

/-- `addETag` writes the policy's ETag when none is present and the policy
is truthy. -/
theorem addETag_get (h : Headers) (content : String) (etag : EtagPolicy)
    (md5 : String → String)
    (hno : h.has "ETag" = false) (ht : etagFalsy etag = false) :
    (addETag h content etag md5).get "ETag" =
      some (match etag with | .ofString s => s | .ofBool _ => md5 content) := by
  unfold addETag
  rw [hno]
  cases etag with
  | ofBool b =>
    have hb : b = true := by cases b <;> simp_all [etagFalsy]
    subst hb
    simp [etagFalsy, Headers.get_set_self]
  | ofString s =>
    have hs : (s == "") = false := by simpa [etagFalsy] using ht
    simp [etagFalsy, hs, Headers.get_set_self]

/-- `addCacheControl` never touches the ETag header. -/
theorem addCacheControl_get_etag (h : Headers) (cache : Option Int) :
    (addCacheControl h cache).get "ETag" = h.get "ETag" := by
  unfold addCacheControl
  cases cache with
  | none => rfl
  | some n =>
    dsimp only
    by_cases hc : (h.has "Cache-Control" || n == 0) = true
    · rw [if_pos hc]
    · rw [if_neg hc]
      exact Headers.get_set_ne h "Cache-Control" _ "ETag" (by decide)

/-- **C8**: for any response with status ≠ 200 the engine adds neither
`ETag` nor `Cache-Control` (the headers are exactly the CORS/user merge,
and the no-content path carries only the CORS headers); for a 200 response
with a truthy etag policy and no pre-set `ETag`, an `ETag` is added — the
user-supplied string, or the MD5 digest of the body, so two 200 responses
with identical bodies carry identical auto-generated ETags. -/
theorem etag_cache_policy (cache : Option Int) (corsHeaders : Option Headers)
    (etag : EtagPolicy) (md5 : String → String) (r : Response) (s : String)
    (hst : r.status ≠ 200)
    (ht : etagFalsy etag = false)
    (hnoetag : (Headers.merge (corsOrEmpty corsHeaders) r.headers).has "ETag" = false)
    (hnocors : (corsOrEmpty corsHeaders).has "ETag" = false) :
    (resultToResponse cache corsHeaders etag md5 (.response r) =
      ⟨r.status, Headers.merge (corsOrEmpty corsHeaders) r.headers, r.body⟩) ∧
    (resultToResponse cache corsHeaders etag md5 .empty =
      ⟨204, corsOrEmpty corsHeaders, none⟩) ∧
    ((resultToResponse cache corsHeaders etag md5
        (.response { r with status := 200 })).headers.get "ETag" =
      some (match etag with | .ofString s' => s' | .ofBool _ => md5 (r.body.getD ""))) ∧
    ((resultToResponse cache corsHeaders (.ofBool true) md5 (.text s)).headers.get "ETag"
      = some (md5 s)) := by
  refine ⟨?_, rfl, ?_, ?_⟩
  · unfold resultToResponse
    dsimp only
    rw [if_neg hst]
  · unfold resultToResponse
    dsimp only
    rw [if_pos rfl]
    rw [addCacheControl_get_etag]
    exact addETag_get _ _ _ _ hnoetag ht
  · unfold resultToResponse
    dsimp only
    rw [addCacheControl_get_etag]
    exact addETag_get
      ((corsOrEmpty corsHeaders).set "Content-Type" "text/plain; charset=utf-8")
      s (.ofBool true) md5
      ((Headers.has_set_ne _ "Content-Type" _ "ETag" (by decide)).trans hnocors) rfl

/-- **C8 witness**: evaluated on a 404 response with a custom header, its
200 variant, and a text body, with the boolean etag policy. -/
theorem etag_cache_policy_witness :
    (resultToResponse none none (.ofBool true) wMd5 (.response wResp404) =
      ⟨wResp404.status, Headers.merge (corsOrEmpty none) wResp404.headers,
       wResp404.body⟩) ∧
    (resultToResponse none none (.ofBool true) wMd5 .empty =
      ⟨204, corsOrEmpty none, none⟩) ∧
    ((resultToResponse none none (.ofBool true) wMd5
        (.response { wResp404 with status := 200 })).headers.get "ETag" =
      some (match (.ofBool true : EtagPolicy) with
        | .ofString s' => s'
        | .ofBool _ => wMd5 (wResp404.body.getD ""))) ∧
    ((resultToResponse none none (.ofBool true) wMd5 (.text "hello")).headers.get "ETag"
      = some (wMd5 "hello")) :=
  etag_cache_policy none none (.ofBool true) wMd5 wResp404 "hello"
    (by decide) rfl rfl rfl

/-- **C10**: when an `authenticate` middleware is configured and returns
null or undefined — and likewise when it returns a user whose id is
missing — the engine responds 403 Forbidden, the route handler is never
invoked and the ambient user cell stays unassigned; the user cell is
assigned exactly when authentication yields a user with an id, and when no
`authenticate` middleware exists it is set to undefined (stored as null). -/
theorem auth_forbidden (config : RouteConfigModel) (corsHeaders : Option Headers)
    (mw : RouteMiddlewareSpec) (handler : HandlerSpec) (md5 : String → String)
    (ls : LocalStorageState)
    (hfresh : ls.userSet = false)
    (hnr : mw.onRequest = none ∨ mw.onRequest = some none)
    (hresp : mw.onResponse = none) :
    (mw.authenticate = some (.returns none) →
      runWithMiddleware config corsHeaders mw handler md5 ls =
        ⟨⟨403, emptyHeaders, some "Forbidden"⟩, false, ls⟩) ∧
    (∀ u : User, mw.authenticate = some (.returns (some u)) → u.id = "" →
      runWithMiddleware config corsHeaders mw handler md5 ls =
        ⟨⟨403, emptyHeaders, some "Forbidden"⟩, false, ls⟩) ∧
    (∀ u : User, mw.authenticate = some (.returns (some u)) → u.id ≠ "" →
      (runWithMiddleware config corsHeaders mw handler md5 ls).store =
        { ls with user := some u, userSet := true }) ∧
    (mw.authenticate = none →
      (runWithMiddleware config corsHeaders mw handler md5 ls).store =
        { ls with user := none, userSet := true }) := by
  refine ⟨?_, ?_, ?_, ?_⟩
  · intro hauth
    unfold runWithMiddleware
    rcases hnr with h | h <;>
      simp [h, hauth, handleOnError, hresp]
  · intro u hauth hid
    unfold runWithMiddleware
    rcases hnr with h | h <;>
      simp [h, hauth, hid, handleOnError, hresp]
  · intro u hauth hid
    unfold runWithMiddleware
    have hset : setUser ls (some u) = .ok { ls with user := some u, userSet := true } := by
      simp [setUser, hfresh, hid]
    rcases hnr with h | h <;>
      · simp only [h, hauth, bne_iff_ne]
        rw [if_neg (by simp [hid])]
        rw [hset]
        cases handler.outcome <;> rfl
  · intro hauth
    unfold runWithMiddleware
    have hset : setUser ls none = .ok { ls with user := none, userSet := true } := by
      simp [setUser, hfresh]
    rcases hnr with h | h <;>
      · simp only [h, hauth]
        rw [if_neg (by simp)]
        rw [hset]
        cases handler.outcome <;> rfl

/-- **C10 witness**: a null-returning `authenticate` on a fresh context
yields 403 Forbidden without invoking the handler. -/
theorem auth_forbidden_witness :
    runWithMiddleware {} none wAuthNullMw wHandler wMd5 {} =
      ⟨⟨403, emptyHeaders, some "Forbidden"⟩, false, {}⟩ :=
  (auth_forbidden {} none wAuthNullMw wHandler wMd5 {} rfl (Or.inl rfl) rfl).1 rfl

/-- An error state propagates through the rest of the loader loop. -/
theorem foldl_loadRouteStep_error (files : List String) (e : String) :
    files.foldl loadRouteStep (.error e) = .error e := by
  induction files with
  | nil => rfl
  | cons f rest ih => rw [List.foldl_cons]; exact ih

/-- If some later file's shape is already recorded in the duplicate set,
the loader loop fails. -/
theorem foldl_loadRouteStep_error_of_mem (files : List String) :
    ∀ (dupes : List String) (acc : List RouteEntry) (f : String) (p : String),
      f ∈ files → routePathOf f = .ok p → signatureOf p ∈ dupes →
      ∃ e, files.foldl loadRouteStep (.ok (dupes, acc)) = .error e := by
  induction files with
  | nil => intro dupes acc f p hmem; cases hmem
  | cons g rest ih =>
    intro dupes acc f p hmem hp hdup
    rw [List.foldl_cons]
    cases hg : routePathOf g with
    | error e =>
      refine ⟨"Error in \"" ++ g ++ "\": Error: " ++ e, ?_⟩
      have hstep : loadRouteStep (.ok (dupes, acc)) g =
          .error ("Error in \"" ++ g ++ "\": Error: " ++ e) := by
        unfold loadRouteStep
        rw [hg]
      rw [hstep]
      exact foldl_loadRouteStep_error rest _
    | ok pg =>
      by_cases hc : signatureOf pg ∈ dupes
      · refine ⟨"Error in \"" ++ g ++ "\": Error: " ++
          "An identical route already exists, maybe with different parameter names", ?_⟩
        have hstep : loadRouteStep (.ok (dupes, acc)) g =
            .error ("Error in \"" ++ g ++ "\": Error: " ++
              "An identical route already exists, maybe with different parameter names") := by
          unfold loadRouteStep
          rw [hg]
          dsimp only
          rw [if_pos hc]
        rw [hstep]
        exact foldl_loadRouteStep_error rest _
      · have hstep : loadRouteStep (.ok (dupes, acc)) g =
            .ok (signatureOf pg :: dupes, acc ++ [⟨pg, g⟩]) := by
          unfold loadRouteStep
          rw [hg]
          dsimp only
          rw [if_neg hc]
        rw [hstep]
        cases hmem with
        | head =>
          rw [hp] at hg
          injection hg with hg
          rw [hg] at hdup
          exact absurd hdup hc
        | tail _ hmem' =>
          exact ih (signatureOf pg :: dupes) (acc ++ [⟨pg, g⟩]) f p hmem' hp
            (List.mem_cons_of_mem _ hdup)

/-- Two files whose paths share a shape make the loader loop fail,
wherever they sit in the enumeration. -/
theorem foldl_loadRouteStep_dup_error (l1 : List String) :
    ∀ (dupes : List String) (acc : List RouteEntry) (l2 l3 : List String)
      (f1 f2 p1 p2 : String),
      routePathOf f1 = .ok p1 → routePathOf f2 = .ok p2 →
      signatureOf p1 = signatureOf p2 →
      ∃ e, (l1 ++ f1 :: (l2 ++ f2 :: l3)).foldl loadRouteStep (.ok (dupes, acc))
        = .error e := by
  induction l1 with
  | nil =>
    intro dupes acc l2 l3 f1 f2 p1 p2 h1 h2 hsig
    rw [List.nil_append, List.foldl_cons]
    by_cases hc : signatureOf p1 ∈ dupes
    · refine ⟨"Error in \"" ++ f1 ++ "\": Error: " ++
        "An identical route already exists, maybe with different parameter names", ?_⟩
      have hstep : loadRouteStep (.ok (dupes, acc)) f1 =
          .error ("Error in \"" ++ f1 ++ "\": Error: " ++
            "An identical route already exists, maybe with different parameter names") := by
        unfold loadRouteStep
        rw [h1]
        dsimp only
        rw [if_pos hc]
      rw [hstep]
      exact foldl_loadRouteStep_error _ _
    · have hstep : loadRouteStep (.ok (dupes, acc)) f1 =
          .ok (signatureOf p1 :: dupes, acc ++ [⟨p1, f1⟩]) := by
        unfold loadRouteStep
        rw [h1]
        dsimp only
        rw [if_neg hc]
      rw [hstep]
      exact foldl_loadRouteStep_error_of_mem (l2 ++ f2 :: l3)
        (signatureOf p1 :: dupes) (acc ++ [⟨p1, f1⟩]) f2 p2
        (List.mem_append_right _ (List.mem_cons_self _ _)) h2
        (by rw [← hsig]; exact List.mem_cons_self _ _)
  | cons g l1' ih =>
    intro dupes acc l2 l3 f1 f2 p1 p2 h1 h2 hsig
    rw [List.cons_append, List.foldl_cons]
    cases hg : routePathOf g with
    | error e =>
      refine ⟨"Error in \"" ++ g ++ "\": Error: " ++ e, ?_⟩
      have hstep : loadRouteStep (.ok (dupes, acc)) g =
          .error ("Error in \"" ++ g ++ "\": Error: " ++ e) := by
        unfold loadRouteStep
        rw [hg]
      rw [hstep]
      exact foldl_loadRouteStep_error _ _
    | ok pg =>
      by_cases hc : signatureOf pg ∈ dupes
      · refine ⟨"Error in \"" ++ g ++ "\": Error: " ++
          "An identical route already exists, maybe with different parameter names", ?_⟩
        have hstep : loadRouteStep (.ok (dupes, acc)) g =
            .error ("Error in \"" ++ g ++ "\": Error: " ++
              "An identical route already exists, maybe with different parameter names") := by
          unfold loadRouteStep
          rw [hg]
          dsimp only
          rw [if_pos hc]
        rw [hstep]
        exact foldl_loadRouteStep_error _ _
      · have hstep : loadRouteStep (.ok (dupes, acc)) g =
            .ok (signatureOf pg :: dupes, acc ++ [⟨pg, g⟩]) := by
          unfold loadRouteStep
          rw [hg]
          dsimp only
          rw [if_neg hc]
        rw [hstep]
        exact ih (signatureOf pg :: dupes) (acc ++ [⟨pg, g⟩]) l2 l3
          f1 f2 p1 p2 h1 h2 hsig

/-- A successful run of the loader loop only adds routes whose shapes
avoid the duplicate set, so pairwise distinctness of shapes is
preserved. -/
theorem foldl_loadRouteStep_ok_pairwise (files : List String) :
    ∀ (dupes : List String) (acc : List RouteEntry)
      (res : List String × List RouteEntry),
      files.foldl loadRouteStep (.ok (dupes, acc)) = .ok res →
      (∀ r ∈ acc, signatureOf r.path ∈ dupes) →
      acc.Pairwise (fun a b => signatureOf a.path ≠ signatureOf b.path) →
      res.2.Pairwise (fun a b => signatureOf a.path ≠ signatureOf b.path) := by
  induction files with
  | nil =>
    intro dupes acc res h hinv hpw
    simp only [List.foldl_nil] at h
    injection h with h
    rw [← h]
    exact hpw
  | cons g rest ih =>
    intro dupes acc res h hinv hpw
    rw [List.foldl_cons] at h
    cases hg : routePathOf g with
    | error e =>
      have hstep : loadRouteStep (.ok (dupes, acc)) g =
          .error ("Error in \"" ++ g ++ "\": Error: " ++ e) := by
        unfold loadRouteStep
        rw [hg]
      rw [hstep, foldl_loadRouteStep_error] at h
      cases h
    | ok pg =>
      by_cases hc : signatureOf pg ∈ dupes
      · have hstep : loadRouteStep (.ok (dupes, acc)) g =
            .error ("Error in \"" ++ g ++ "\": Error: " ++
              "An identical route already exists, maybe with different parameter names") := by
          unfold loadRouteStep
          rw [hg]
          dsimp only
          rw [if_pos hc]
        rw [hstep, foldl_loadRouteStep_error] at h
        cases h
      · have hstep : loadRouteStep (.ok (dupes, acc)) g =
            .ok (signatureOf pg :: dupes, acc ++ [⟨pg, g⟩]) := by
          unfold loadRouteStep
          rw [hg]
          dsimp only
          rw [if_neg hc]
        rw [hstep] at h
        refine ih _ _ _ h ?_ ?_
        · intro r hr
          rcases List.mem_append.mp hr with hr' | hr'
          · exact List.mem_cons_of_mem _ (hinv r hr')
          · simp only [List.mem_singleton] at hr'
            rw [hr']
            exact List.mem_cons_self _ _
        · rw [List.pairwise_append]
          refine ⟨hpw, List.pairwise_singleton _ _, ?_⟩
          intro a ha b hb
          simp only [List.mem_singleton] at hb
          rw [hb]
          intro hcontra
          exact hc (hcontra ▸ hinv a ha)

/-- **C6**: if two files under `api/` map to route paths with the same
shape (each `:name` parameter replaced by a bare `:`), manifest loading
fails with a hard error — concretely, `api/a/[x].ts` and `api/a/[y].ts`
produce an error naming `api/a/[y].ts` — and consequently every
successfully produced manifest has pairwise distinct route shapes. -/
theorem duplicate_shape (l1 l2 l3 : List String) (f1 f2 p1 p2 : String)
    (h1 : routePathOf f1 = .ok p1) (h2 : routePathOf f2 = .ok p2)
    (hsig : signatureOf p1 = signatureOf p2) :
    (∃ e, loadRoutes (l1 ++ f1 :: (l2 ++ f2 :: l3)) = .error e) ∧
    (∀ (files : List String) (routes : List RouteEntry),
      loadRoutes files = .ok routes →
      routes.Pairwise (fun a b => signatureOf a.path ≠ signatureOf b.path)) ∧
    loadRoutes ["api/a/[x].ts", "api/a/[y].ts"] =
      .error ("Error in \"api/a/[y].ts\": Error: " ++
        "An identical route already exists, maybe with different parameter names") := by
  refine ⟨?_, ?_, rfl⟩
  · obtain ⟨e, he⟩ := foldl_loadRouteStep_dup_error l1 [] [] l2 l3 f1 f2 p1 p2 h1 h2 hsig
    refine ⟨e, ?_⟩
    unfold loadRoutes loadRoutesAux
    rw [he]
    rfl
  · intro files routes h
    unfold loadRoutes loadRoutesAux at h
    cases hf : files.foldl loadRouteStep (.ok ([], [])) with
    | error e => rw [hf] at h; cases h
    | ok res =>
      rw [hf] at h
      injection h with h
      rw [← h]
      exact foldl_loadRouteStep_ok_pairwise files [] [] res hf
        (fun r hr => absurd hr (List.not_mem_nil r)) List.Pairwise.nil

/-- **C6 witness**: the two colliding bracket files make the loader fail. -/
theorem duplicate_shape_witness :
    (∃ e, loadRoutes ([] ++ "api/a/[x].ts" :: ([] ++ "api/a/[y].ts" :: [])) =
      .error e) ∧
    (∀ (files : List String) (routes : List RouteEntry),
      loadRoutes files = .ok routes →
      routes.Pairwise (fun a b => signatureOf a.path ≠ signatureOf b.path)) ∧
    loadRoutes ["api/a/[x].ts", "api/a/[y].ts"] =
      .error ("Error in \"api/a/[y].ts\": Error: " ++
        "An identical route already exists, maybe with different parameter names") :=
  duplicate_shape [] [] [] "api/a/[x].ts" "api/a/[y].ts" "a/:x" "a/:y" rfl rfl rfl

end QueueRun
